import Mathlib

/-!
Verification development for the message-construction core of
`lattice-eth2-utils` (deposit data and BLS-to-execution-change assemblers).

Bytes are modelled as `List Nat` (each entry a byte value).  The SHA-256
dependency (`@noble/hashes/sha256`) is embedded as an executable Lean
implementation of FIPS 180-4 SHA-256.  The `@chainsafe/ssz` hash-tree-root
computation for the fixed-size container types used by the repository is
embedded as `merkleize`/`containerRoot`/`htrByteVector`/`htrUint64`.
-/

/-! ## SHA-256 (embedding of the `@noble/hashes/sha256` dependency) -/

def wordMod : Nat := 4294967296

/-- Rotate a 32-bit word right by `n` bits. -/
def rotw32 (n x : Nat) : Nat := (x >>> n) ||| ((x <<< (32 - n)) % wordMod)

def sLow0 (x : Nat) : Nat := (rotw32 7 x) ^^^ (rotw32 18 x) ^^^ (x >>> 3)

def sLow1 (x : Nat) : Nat := (rotw32 17 x) ^^^ (rotw32 19 x) ^^^ (x >>> 10)

def sBig0 (x : Nat) : Nat := (rotw32 2 x) ^^^ (rotw32 13 x) ^^^ (rotw32 22 x)

def sBig1 (x : Nat) : Nat := (rotw32 6 x) ^^^ (rotw32 11 x) ^^^ (rotw32 25 x)

def chF (x y z : Nat) : Nat := (x &&& y) ^^^ ((x ^^^ 4294967295) &&& z)

def majF (x y z : Nat) : Nat := (x &&& y) ^^^ (x &&& z) ^^^ (y &&& z)

/-- The 64 SHA-256 round constants of FIPS 180-4 (decimal). -/
def K256 : List Nat := [
  1116352408, 1899447441, 3049323471, 3921009573, 961987163,
  1508970993, 2453635748, 2870763221, 3624381080, 310598401,
  607225278, 1426881987, 1925078388, 2162078206, 2614888103,
  3248222580, 3835390401, 4022224774, 264347078, 604807628,
  770255983, 1249150122, 1555081692, 1996064986, 2554220882,
  2821834349, 2952996808, 3210313671, 3336571891, 3584528711,
  113926993, 338241895, 666307205, 773529912, 1294757372,
  1396182291, 1695183700, 1986661051, 2177026350, 2456956037,
  2730485921, 2820302411, 3259730800, 3345764771, 3516065817,
  3600352804, 4094571909, 275423344, 430227734, 506948616,
  659060556, 883997877, 958139571, 1322822218, 1537002063,
  1747873779, 1955562222, 2024104815, 2227730452, 2361852424,
  2428436474, 2756734187, 3204031479, 3329325298]

structure Hstate where
  a : Nat
  b : Nat
  c : Nat
  d : Nat
  e : Nat
  f : Nat
  g : Nat
  h : Nat
  deriving Repr, DecidableEq

/-- SHA-256 initial hash value (decimal). -/
def initH : Hstate :=
  { a := 1779033703, b := 3144134277, c := 1013904242, d := 2773480762,
    e := 1359893119, f := 2600822924, g := 528734635, h := 1541459225 }

/-- One round of the SHA-256 compression function. -/
def shaStep (s : Hstate) (kw : Nat × Nat) : Hstate :=
  let t1 := (s.h + sBig1 s.e + chF s.e s.f s.g + kw.1 + kw.2) % wordMod
  let t2 := (sBig0 s.a + majF s.a s.b s.c) % wordMod
  { a := (t1 + t2) % wordMod, b := s.a, c := s.b, d := s.c,
    e := (s.d + t1) % wordMod, f := s.e, g := s.f, h := s.g }

/-- Extend a 16-word block to the 64-word message schedule (`n` extension steps). -/
def extendSchedule : Nat → List Nat → List Nat
  | 0, ws => ws
  | n + 1, ws =>
    let i := ws.length
    let w := (sLow1 (ws.getD (i - 2) 0) + ws.getD (i - 7) 0 +
              sLow0 (ws.getD (i - 15) 0) + ws.getD (i - 16) 0) % wordMod
    extendSchedule n (ws ++ [w])

def schedule (block : List Nat) : List Nat := extendSchedule 48 block

/-- Compress one 16-word block into the running hash state. -/
def compressBlock (h : Hstate) (block : List Nat) : Hstate :=
  let s := (K256.zip (schedule block)).foldl shaStep h
  { a := (h.a + s.a) % wordMod, b := (h.b + s.b) % wordMod,
    c := (h.c + s.c) % wordMod, d := (h.d + s.d) % wordMod,
    e := (h.e + s.e) % wordMod, f := (h.f + s.f) % wordMod,
    g := (h.g + s.g) % wordMod, h := (h.h + s.h) % wordMod }

/-- Serialize a 32-bit word to 4 big-endian bytes. -/
def wordBytes (x : Nat) : List Nat :=
  [(x >>> 24) % 256, (x >>> 16) % 256, (x >>> 8) % 256, x % 256]

/-- Serialize a 64-bit length to 8 big-endian bytes. -/
def lenBytes (x : Nat) : List Nat :=
  [(x >>> 56) % 256, (x >>> 48) % 256, (x >>> 40) % 256, (x >>> 32) % 256,
   (x >>> 24) % 256, (x >>> 16) % 256, (x >>> 8) % 256, x % 256]

/-- SHA-256 message padding: `0x80`, zero bytes to 56 mod 64, then the bit length. -/
def sha256Pad (msg : List Nat) : List Nat :=
  let L := msg.length
  let k := (120 - ((L + 1) % 64)) % 64
  msg ++ [128] ++ List.replicate k 0 ++ lenBytes (L * 8)

/-- Group bytes into 32-bit big-endian words. -/
def bytesToWords : List Nat → List Nat
  | b0 :: b1 :: b2 :: b3 :: rest =>
    (((b0 % 256) <<< 24) ||| ((b1 % 256) <<< 16) ||| ((b2 % 256) <<< 8) ||| (b3 % 256)) ::
      bytesToWords rest
  | _ => []

/-- Group a word list into 16-word blocks. -/
def toBlocks (ws : List Nat) : List (List Nat) :=
  if ws = [] then [] else ws.take 16 :: toBlocks (ws.drop 16)
termination_by ws.length
decreasing_by
  rename_i hne
  have : 0 < ws.length := List.length_pos.mpr hne
  simp only [List.length_drop]
  omega

def stateBytes (s : Hstate) : List Nat :=
  wordBytes s.a ++ wordBytes s.b ++ wordBytes s.c ++ wordBytes s.d ++
  wordBytes s.e ++ wordBytes s.f ++ wordBytes s.g ++ wordBytes s.h

/-- SHA-256 of a byte list, as a 32-entry byte list. -/
def sha256 (msg : List Nat) : List Nat :=
  stateBytes ((toBlocks (bytesToWords (sha256Pad msg))).foldl compressBlock initH)

/-! ## SSZ merkleization (embedding of the `@chainsafe/ssz` hash-tree-root
computation for the fixed-size `ContainerType`/`ByteVectorType`/`UintNumberType`
values used by this repository) -/

def zeroChunk : List Nat := List.replicate 32 0

/-- Smallest power of two that is at least `n` (`n` itself doubles as fuel). -/
def nextPow2Aux : Nat → Nat → Nat
  | 0, _ => 1
  | fuel + 1, n => if n ≤ 1 then 1 else 2 * nextPow2Aux fuel ((n + 1) / 2)

def nextPow2 (n : Nat) : Nat := nextPow2Aux n n

/-- Hash adjacent 32-byte chunks pairwise. -/
def hashAdjacent : List (List Nat) → List (List Nat)
  | a :: b :: rest => sha256 (a ++ b) :: hashAdjacent rest
  | l => l

/-- Combine a padded chunk list up to a single root (fuel-indexed). -/
def merkleizeRounds : Nat → List (List Nat) → List Nat
  | _, [] => zeroChunk
  | _, [c] => c
  | 0, c :: _ :: _ => c
  | fuel + 1, cs => merkleizeRounds fuel (hashAdjacent cs)

/-- SSZ `merkleize`: pad the chunk list with zero chunks to the next power of
two, then hash adjacent chunks pairwise up to a single 32-byte root. -/
def merkleize (chunks : List (List Nat)) : List Nat :=
  let padded := chunks ++ List.replicate (nextPow2 chunks.length - chunks.length) zeroChunk
  merkleizeRounds padded.length padded

/-- Split a byte vector into 32-byte chunks, right-padding the last with zeros. -/
def chunkify (bs : List Nat) : List (List Nat) :=
  if bs.length ≤ 32 then [bs ++ List.replicate (32 - bs.length) 0]
  else bs.take 32 :: chunkify (bs.drop 32)
termination_by bs.length
decreasing_by
  rename_i hgt
  simp only [List.length_drop]
  omega

/-- Hash tree root of an SSZ `ByteVectorType` value. -/
def htrByteVector (bs : List Nat) : List Nat := merkleize (chunkify bs)

/-- Serialization of an SSZ `UintNumberType(8)` value: 8 little-endian bytes. -/
def uintLeBytes (x : Nat) : List Nat :=
  [x % 256, (x >>> 8) % 256, (x >>> 16) % 256, (x >>> 24) % 256,
   (x >>> 32) % 256, (x >>> 40) % 256, (x >>> 48) % 256, (x >>> 56) % 256]

/-- Hash tree root of an SSZ `UintNumberType(8)` value. -/
def htrUint64 (x : Int) : List Nat := uintLeBytes x.toNat ++ List.replicate 24 0

/-- Hash tree root of an SSZ `ContainerType`: merkleize the field roots in
field order. -/
def containerRoot (fieldRoots : List (List Nat)) : List Nat := merkleize fieldRoots

/-! ## Errors (§7 of the spec: one constructor per throw-site kind) -/

inductive EthErr where
  | invalidEncoding
  | invalidNetworkInfo
  | invalidWithdrawalKey
  | invalidObjectRoot
  | missingParameter
  | signerMismatch
  | invalidAmount
  deriving Repr, DecidableEq

/-! ## Byte-vector codec (src/utils.ts `ensureHexBuffer`) -/

/-- A JavaScript value passed to `ensureHexBuffer`: a string, a `Buffer`
(byte list), or anything else. -/
inductive HexInput where
  | str (s : String)
  | buf (b : List Nat)
  | other
  deriving Repr, DecidableEq

/-- Value of a hex digit character, `none` for a non-hex character. -/
def hexVal (c : Char) : Option Nat :=
  if '0' ≤ c ∧ c ≤ '9' then some (c.toNat - 48)
  else if 'a' ≤ c ∧ c ≤ 'f' then some (c.toNat - 87)
  else if 'A' ≤ c ∧ c ≤ 'F' then some (c.toNat - 55)
  else none

/-- Node.js `Buffer.from(str, 'hex')`: decode complete pairs of hex digits
from the left, silently stopping at the first invalid pair or lone trailing
character. Never raises. -/
def nodeHexDecode : List Char → List Nat
  | c1 :: c2 :: rest =>
    match hexVal c1, hexVal c2 with
    | some hi, some lo => (16 * hi + lo) :: nodeHexDecode rest
    | _, _ => []
  | _ => []

/-- src/utils.ts `ensureHexBuffer`: strings are hex-decoded (a leading `0x`
is stripped first), Buffers pass through unchanged, anything else throws. -/
def ensureHexBuffer : HexInput → Except EthErr (List Nat)
  | .str s =>
    .ok (nodeHexDecode (if s.take 2 = "0x" then (s.drop 2).data else s.data))
  | .buf b => .ok b
  | .other => .error .invalidEncoding

/-- Node.js `src.copy(dst, off)`: overwrite `dst` from offset `off` with as
many bytes of `src` as fit; the result keeps `dst`'s length. -/
def bufCopy (src : List Nat) (off : Nat) (dst : List Nat) : List Nat :=
  dst.take off ++ src.take (dst.length - off) ++ dst.drop (off + src.length)

/-- Node.js `buf.toString('hex')`: two lowercase hex digits per byte. -/
def hexDigit (n : Nat) : Char := if n < 10 then Char.ofNat (48 + n) else Char.ofNat (87 + n)

def bytesToHex (bs : List Nat) : String :=
  String.mk ((bs.map (fun b => [hexDigit (b % 256 / 16), hexDigit (b % 256 % 16)])).flatten)

/-! ## Data model -/

structure NetworkInfo where
  networkName : String
  forkVersion : List Nat
  validatorsRoot : List Nat
  deriving Repr, DecidableEq

/-! ## Constants (src/constants.ts) -/

namespace NETWORKS

/-- src/constants.ts `NETWORKS.MAINNET_GENESIS`: fork version
`Buffer.alloc(4)` and the fixed mainnet genesis validators root
`Buffer.from('4b36…fe95', 'hex')`. -/
def MAINNET_GENESIS : NetworkInfo :=
  { networkName := "mainnet",
    forkVersion := List.replicate 4 0,
    validatorsRoot :=
      nodeHexDecode
        "4b363db94e286120d76eb905340fdd4e54bfe9f06bf33ff6cf5ad27f511bfe95".data }

end NETWORKS

namespace DOMAINS

/-- src/constants.ts `DOMAINS.BLS_TO_EXECUTION_CHANGE = Buffer.from('0A000000', 'hex')`. -/
def BLS_TO_EXECUTION_CHANGE : List Nat := nodeHexDecode "0A000000".data

/-- src/constants.ts `DOMAINS.DEPOSIT = Buffer.from('03000000', 'hex')`. -/
def DEPOSIT : List Nat := nodeHexDecode "03000000".data

end DOMAINS

/-! ## Domain separator and signing root (src/utils.ts) -/

/-- Hash tree root of the `ForkData` container
`{ current_version: ByteVector(4), genesis_validators_root: ByteVector(32) }`. -/
def forkDataRoot (ni : NetworkInfo) : List Nat :=
  containerRoot [htrByteVector ni.forkVersion, htrByteVector ni.validatorsRoot]

/-- The domain value built by src/utils.ts `buildDomain` once validation has
passed: a 32-byte zero buffer with `domainType` copied at offset 0 and the
first 28 bytes of the fork-data root copied at offset 4. -/
def mkDomain (domainType : List Nat) (ni : NetworkInfo) : List Nat :=
  bufCopy ((forkDataRoot ni).take 28) 4 (bufCopy domainType 0 (List.replicate 32 0))

/-- src/utils.ts `buildDomain`. The JS `!forkVersion` / `!validatorsRoot`
null checks are unrepresentable for buffer-valued fields (every Buffer,
including an empty one, is truthy), so only the length checks remain. -/
def buildDomain (domainType : List Nat) (ni : NetworkInfo) : Except EthErr (List Nat) :=
  if ni.forkVersion.length ≠ 4 then .error .invalidNetworkInfo
  else if ni.validatorsRoot.length ≠ 32 then .error .invalidNetworkInfo
  else .ok (mkDomain domainType ni)

/-- src/utils.ts `buildSigningRoot`: hash tree root of the `SigningData`
container `{ object_root: ByteVector(32), domain: ByteVector(32) }`. -/
def buildSigningRoot (objectRoot domainType : List Nat) (ni : NetworkInfo) :
    Except EthErr (List Nat) :=
  if objectRoot.length ≠ 32 then .error .invalidObjectRoot
  else do
    let domain ← buildDomain domainType ni
    pure (containerRoot [htrByteVector objectRoot, htrByteVector domain])

/-- src/utils.ts `getWithdrawalCredentials`: 48-byte BLS key → `0x00` then
bytes 1–31 of SHA-256 of the key; 20-byte ETH1 address → `0x01`, zero
padding, then the address at offset 12; anything else throws. -/
def getWithdrawalCredentials (withdrawalKey : List Nat) : Except EthErr (List Nat) := do
  let keyBuf ← ensureHexBuffer (.buf withdrawalKey)
  if keyBuf.length = 48 then
    pure (bufCopy ((sha256 keyBuf).drop 1) 1 ((List.replicate 32 0).set 0 0))
  else if keyBuf.length = 20 then
    pure (bufCopy keyBuf 12 ((List.replicate 32 0).set 0 1))
  else .error .invalidWithdrawalKey

/-! ## The external signer collaborator (§6 of the spec) -/

structure SignResult where
  sig : List Nat
  pubkey : List Nat

/-- The external signer: `getAddress` models
`client.getAddresses({startPath, flag: BLS12_381_G1_PUB})[0]` (the SDK
returns byte buffers) and `sign` models `client.sign` on a signing-root
payload, returning the signature and the signer's public key. -/
structure Signer where
  getAddress : List Nat → List Nat
  sign : List Nat → SignResult

/-! ## Deposit data assembler (src/depositData.ts) -/

structure DepositDataOpts where
  withdrawTo : Option String
  amountGwei : Option Int
  networkInfo : Option NetworkInfo
  depositCliVersion : Option String

structure DepositData where
  pubkey : String
  withdrawal_credentials : String
  amount : Int
  signature : String
  deposit_message_root : String
  deposit_data_root : String
  fork_version : String
  network_name : String
  deposit_cli_version : String
  deriving Repr, DecidableEq

/-- JS truthiness of an optional string: `undefined`, `null` and `''` are
falsy, every other string is truthy. -/
def jsTruthyStr (o : Option String) : Bool :=
  match o with
  | none => false
  | some s => s ≠ ""

namespace DepositData

/-- src/depositData.ts `getEthDepositWithdrawalCredentials` (private copy of
`getWithdrawalCredentials`, identical body). -/
def getEthDepositWithdrawalCredentials (withdrawalKey : List Nat) :
    Except EthErr (List Nat) := do
  let keyBuf ← ensureHexBuffer (.buf withdrawalKey)
  if keyBuf.length = 48 then
    pure (bufCopy ((sha256 keyBuf).drop 1) 1 ((List.replicate 32 0).set 0 0))
  else if keyBuf.length = 20 then
    pure (bufCopy keyBuf 12 ((List.replicate 32 0).set 0 1))
  else .error .invalidWithdrawalKey

/-- src/depositData.ts `buildDepositData`.  `path` is a JS array and hence
always truthy; `networkInfo.forkVersion`/`validatorsRoot` are buffer fields
and hence always truthy, so of the JS presence checks only the falsy-value
cases remain (`amountGwei = 0`, empty strings).  The deposit message root is
the hash tree root of the `DepositMessage` container
`{ pubkey: ByteVector(48), withdrawal_credentials: ByteVector(32), amount: Uint64 }`
and the deposit data root adds `signature: ByteVector(96)`. -/
def buildDepositData (client : Signer) (path : List Nat) (opts : DepositDataOpts) :
    Except EthErr DepositData :=
  let amountGwei := opts.amountGwei.getD 32000000000
  let depositCliVersion := opts.depositCliVersion.getD "2.3.0"
  let networkInfo := opts.networkInfo.getD NETWORKS.MAINNET_GENESIS
  let withdrawTo := opts.withdrawTo
  if amountGwei = 0 ∨ depositCliVersion = "" then .error .missingParameter
  else if amountGwei < 0 ∨ (2 : Int) ^ 64 ≤ amountGwei then .error .invalidAmount
  else if networkInfo.networkName = "" then .error .invalidNetworkInfo
  else if networkInfo.forkVersion.length ≠ 4 then .error .invalidNetworkInfo
  else if networkInfo.validatorsRoot.length ≠ 32 then .error .invalidNetworkInfo
  else do
    let depositKey ← ensureHexBuffer (.buf (client.getAddress path))
    let withdrawalKeyBuf ←
      if jsTruthyStr withdrawTo then ensureHexBuffer (.str (withdrawTo.getD ""))
      else ensureHexBuffer (.buf (client.getAddress (path.take (path.length - 1))))
    let withdrawalCreds ← getEthDepositWithdrawalCredentials withdrawalKeyBuf
    let depositMessageRoot :=
      containerRoot [htrByteVector depositKey, htrByteVector withdrawalCreds,
                     htrUint64 amountGwei]
    let payload ← buildSigningRoot depositMessageRoot DOMAINS.DEPOSIT networkInfo
    let sigRes := client.sign payload
    if bytesToHex sigRes.pubkey ≠ bytesToHex depositKey then .error .signerMismatch
    else
      let depositDataRoot :=
        containerRoot [htrByteVector depositKey, htrByteVector withdrawalCreds,
                       htrUint64 amountGwei, htrByteVector sigRes.sig]
      .ok {
        pubkey := bytesToHex depositKey,
        withdrawal_credentials := bytesToHex withdrawalCreds,
        amount := amountGwei,
        signature := bytesToHex sigRes.sig,
        deposit_message_root := bytesToHex depositMessageRoot,
        deposit_data_root := bytesToHex depositDataRoot,
        fork_version := bytesToHex networkInfo.forkVersion,
        network_name := networkInfo.networkName,
        deposit_cli_version := depositCliVersion }

end DepositData

/-! ## BLS-to-execution-change assembler (src/blsToExecution.ts) -/

structure BlsToExecutionOpts where
  eth1Addr : Option String
  validatorIdx : Option Int
  networkInfo : Option NetworkInfo

structure BlsToExecutionChangeMsg where
  validator_index : String
  from_bls_pubkey : String
  to_execution_address : String
  deriving Repr, DecidableEq

structure SignedBlsToExecutionChange where
  message : BlsToExecutionChangeMsg
  signature : String
  deriving Repr, DecidableEq

namespace BLSToExecution

/-- src/blsToExecution.ts `generate`: validates presence of `eth1Addr`
(JS-falsy check `!eth1Addr`) and `validatorIdx` (`=== undefined || === null`),
then builds the `BLSToExecutionChange` container root
`{ validator_index: Uint64, from_bls_pubkey: ByteVector(48), to_execution_address: ByteVector(20) }`,
its signing root under the `BLS_TO_EXECUTION_CHANGE` domain, and the signed
message. -/
def generate (client : Signer) (path : List Nat) (opts : BlsToExecutionOpts) :
    Except EthErr SignedBlsToExecutionChange :=
  let networkInfo := opts.networkInfo.getD NETWORKS.MAINNET_GENESIS
  if ¬ jsTruthyStr opts.eth1Addr then .error .missingParameter
  else if opts.validatorIdx = none then .error .missingParameter
  else do
    let eth1AddrBuf ← ensureHexBuffer (.str (opts.eth1Addr.getD ""))
    let blsWithdrawalPub ← ensureHexBuffer (.buf (client.getAddress path))
    let blsToExecutionChangeRoot :=
      containerRoot [htrUint64 (opts.validatorIdx.getD 0),
                     htrByteVector blsWithdrawalPub, htrByteVector eth1AddrBuf]
    let payload ←
      buildSigningRoot blsToExecutionChangeRoot DOMAINS.BLS_TO_EXECUTION_CHANGE networkInfo
    let sr := client.sign payload
    .ok {
      message := {
        validator_index := toString (opts.validatorIdx.getD 0),
        from_bls_pubkey := "0x" ++ bytesToHex blsWithdrawalPub,
        to_execution_address := "0x" ++ bytesToHex eth1AddrBuf },
      signature := "0x" ++ bytesToHex sr.sig }

end BLSToExecution

/-- A deterministic stand-in external signer used for concrete runs. -/
def constSigner : Signer :=
  { getAddress := fun _ => List.replicate 48 9,
    sign := fun _ => { sig := List.replicate 96 0, pubkey := List.replicate 48 9 } }

instance exceptDecEq {ε α : Type} [DecidableEq ε] [DecidableEq α] :
    DecidableEq (Except ε α) := fun x y =>
  match x, y with
  | .ok a, .ok b =>
    if h : a = b then isTrue (by rw [h])
    else isFalse (by intro hc; injection hc; contradiction)
  | .error e, .error e2 =>
    if h : e = e2 then isTrue (by rw [h])
    else isFalse (by intro hc; injection hc; contradiction)
  | .ok _, .error _ => isFalse (fun hc => Except.noConfusion hc)
  | .error _, .ok _ => isFalse (fun hc => Except.noConfusion hc)

/-- The signing-root value produced by `buildSigningRoot` once its validation
has passed: the hash tree root of the `SigningData` container over the object
root and the built domain. -/
def signingRootOf (objectRoot domainType : List Nat) (ni : NetworkInfo) : List Nat :=
  containerRoot [htrByteVector objectRoot, htrByteVector (mkDomain domainType ni)]

/-- A stand-in signer for concrete runs of the deposit assembler: its key at
5-index paths (deposit keys) differs from its key at shorter paths
(withdrawal keys), and its signatures report the deposit key. -/
def pathSigner : Signer :=
  { getAddress := fun p => if p.length = 5 then List.replicate 48 1 else List.replicate 48 2,
    sign := fun _ => { sig := List.replicate 96 0, pubkey := List.replicate 48 1 } }

/-- A stand-in signer whose signatures report a public key that matches no
key it ever resolves. -/
def badSigner : Signer :=
  { getAddress := fun p => if p.length = 5 then List.replicate 48 1 else List.replicate 48 2,
    sign := fun _ => { sig := List.replicate 96 0, pubkey := List.replicate 48 3 } }

/-! ## Theorems -/

theorem wordBytes_length (x : Nat) : (wordBytes x).length = 4 := rfl

theorem stateBytes_length (s : Hstate) : (stateBytes s).length = 32 := by
  simp [stateBytes, wordBytes]

theorem sha256_length (msg : List Nat) : (sha256 msg).length = 32 := by
  simp [sha256, stateBytes_length]

theorem merkleize_one (a : List Nat) : merkleize [a] = a := rfl

theorem merkleize_two (a b : List Nat) : merkleize [a, b] = sha256 (a ++ b) := by
  simp [merkleize, merkleizeRounds, hashAdjacent, nextPow2, nextPow2Aux]

theorem merkleize_three (a b c : List Nat) :
    merkleize [a, b, c] = sha256 (sha256 (a ++ b) ++ sha256 (c ++ zeroChunk)) := by
  simp [merkleize, merkleizeRounds, hashAdjacent, nextPow2, nextPow2Aux]

theorem merkleize_four (a b c d : List Nat) :
    merkleize [a, b, c, d] = sha256 (sha256 (a ++ b) ++ sha256 (c ++ d)) := by
  simp [merkleize, merkleizeRounds, hashAdjacent, nextPow2, nextPow2Aux]

/-! ## Helper lemmas -/

theorem okBind {α β : Type} (a : α) (f : α → Except EthErr β) :
    (Except.ok a : Except EthErr α) >>= f = f a := rfl

theorem ensureHexBuffer_buf (b : List Nat) : ensureHexBuffer (.buf b) = .ok b := rfl

theorem ensureHexBuffer_str (s : String) :
    ensureHexBuffer (.str s) =
      .ok (nodeHexDecode (if s.take 2 = "0x" then (s.drop 2).data else s.data)) := rfl

theorem forkDataRoot_length (ni : NetworkInfo) : (forkDataRoot ni).length = 32 := by
  simp [forkDataRoot, containerRoot, merkleize_two, sha256_length]

theorem mkDomain_eq (dt : List Nat) (ni : NetworkInfo) (h : dt.length = 4) :
    mkDomain dt ni = dt ++ (forkDataRoot ni).take 28 := by
  have hf : (forkDataRoot ni).length = 32 := forkDataRoot_length ni
  have h1 : bufCopy dt 0 (List.replicate 32 0) = dt ++ List.replicate 28 0 := by
    simp [bufCopy, List.take_of_length_le (by omega : dt.length ≤ 32), h]
  unfold mkDomain
  rw [h1]
  have hlen : (dt ++ List.replicate 28 0).length = 32 := by simp [h]
  simp only [bufCopy, hlen]
  have ht4 : (dt ++ List.replicate 28 0).take 4 = dt := by
    rw [← h]; exact List.take_left dt _
  have hd : (dt ++ List.replicate 28 0).drop (4 + ((forkDataRoot ni).take 28).length) = [] := by
    apply List.drop_eq_nil_of_le
    simp [h, hf]
  have ht28 : ((forkDataRoot ni).take 28).take (32 - 4) = (forkDataRoot ni).take 28 := by
    apply List.take_of_length_le
    simp [hf]
  rw [ht4, hd, ht28, List.append_nil]

theorem mkDomain_length (dt : List Nat) (ni : NetworkInfo) (h : dt.length = 4) :
    (mkDomain dt ni).length = 32 := by
  rw [mkDomain_eq dt ni h]
  simp [h, forkDataRoot_length ni]

theorem getWC_eq_private :
    getWithdrawalCredentials = DepositData.getEthDepositWithdrawalCredentials := rfl

theorem pureOk {α : Type} (a : α) : (pure a : Except EthErr α) = Except.ok a := rfl

theorem creds_bls (k : List Nat) (h : k.length = 48) :
    DepositData.getEthDepositWithdrawalCredentials k = .ok (0 :: (sha256 k).drop 1) := by
  have hs : (sha256 k).length = 32 := sha256_length k
  unfold DepositData.getEthDepositWithdrawalCredentials
  rw [ensureHexBuffer_buf, okBind, if_pos h]
  have hset : (List.replicate 32 (0 : Nat)).set 0 0 = (0 : Nat) :: List.replicate 31 0 := rfl
  have hlen : ((0 : Nat) :: List.replicate 31 0).length = 32 := by simp
  have htail : ((sha256 k).drop 1).length = 31 := by simp [hs]
  rw [hset]
  simp only [bufCopy, hlen, htail]
  have h1 : ((0 : Nat) :: List.replicate 31 0).take 1 = [0] := rfl
  have h2 : ((sha256 k).drop 1).take (32 - 1) = (sha256 k).drop 1 := by
    apply List.take_of_length_le; omega
  have h3 : ((0 : Nat) :: List.replicate 31 0).drop (1 + 31) = [] := by
    apply List.drop_eq_nil_of_le; simp
  rw [h1, h2, h3, List.append_nil]
  rfl

theorem creds_eth1 (k : List Nat) (h : k.length = 20) :
    DepositData.getEthDepositWithdrawalCredentials k =
      .ok (1 :: (List.replicate 11 0 ++ k)) := by
  unfold DepositData.getEthDepositWithdrawalCredentials
  rw [ensureHexBuffer_buf, okBind, if_neg (by omega), if_pos h]
  have hset : (List.replicate 32 (0 : Nat)).set 0 1 = (1 : Nat) :: List.replicate 31 0 := rfl
  have hlen : ((1 : Nat) :: List.replicate 31 0).length = 32 := by simp
  rw [hset]
  simp only [bufCopy, hlen]
  have h1 : ((1 : Nat) :: List.replicate 31 0).take 12 = 1 :: List.replicate 11 0 := by
    simp [List.take_replicate]
  have h2 : k.take (32 - 12) = k := by apply List.take_of_length_le; omega
  have h3 : ((1 : Nat) :: List.replicate 31 0).drop (12 + k.length) = [] := by
    apply List.drop_eq_nil_of_le; simp [h]
  rw [h1, h2, h3, List.append_nil]
  rfl

theorem creds_invalid (k : List Nat) (h48 : k.length ≠ 48) (h20 : k.length ≠ 20) :
    DepositData.getEthDepositWithdrawalCredentials k = .error .invalidWithdrawalKey := by
  unfold DepositData.getEthDepositWithdrawalCredentials
  rw [ensureHexBuffer_buf, okBind, if_neg h48, if_neg h20]

/-! ## Claim theorems -/

/-- C1 (counterexample): the claim "NETWORKS.MAINNET_GENESIS has forkVersion
0x00000000 and validatorsRoot equal to 32 zero bytes" is false on the code:
the constant's validators root is the non-zero mainnet genesis root
`0x4b363db9…bfe95`. -/
theorem c1_counterexample :
    ¬ (NETWORKS.MAINNET_GENESIS.forkVersion = List.replicate 4 0 ∧
       NETWORKS.MAINNET_GENESIS.validatorsRoot = List.replicate 32 0) := by
  decide

/-- C1 (amended): the built-in default network info `NETWORKS.MAINNET_GENESIS`
has forkVersion equal to the 4-byte zero buffer and validatorsRoot equal to
the fixed non-zero 32-byte mainnet genesis validators root
`0x4b363db94e286120d76eb905340fdd4e54bfe9f06bf33ff6cf5ad27f511bfe95`. -/
theorem c1_mainnet_genesis_constant :
    NETWORKS.MAINNET_GENESIS.forkVersion = List.replicate 4 0 ∧
    NETWORKS.MAINNET_GENESIS.validatorsRoot =
      [0x4b, 0x36, 0x3d, 0xb9, 0x4e, 0x28, 0x61, 0x20, 0xd7, 0x6e, 0xb9, 0x05,
       0x34, 0x0f, 0xdd, 0x4e, 0x54, 0xbf, 0xe9, 0xf0, 0x6b, 0xf3, 0x3f, 0xf6,
       0xcf, 0x5a, 0xd2, 0x7f, 0x51, 0x1b, 0xfe, 0x95] ∧
    NETWORKS.MAINNET_GENESIS.validatorsRoot ≠ List.replicate 32 0 := by
  decide

/-- C2: the withdrawal-credential encoder maps a 48-byte input to the 32-byte
output `0x00 ‖ SHA-256(input)[1..31]` (first hash byte dropped), a 20-byte
input to `0x01 ‖ 11 zero bytes ‖ input`, and fails with
`InvalidWithdrawalKey` on any other length. -/
theorem c2_withdrawal_credentials (key : List Nat) :
    (key.length = 48 →
      getWithdrawalCredentials key = .ok (0 :: (sha256 key).drop 1) ∧
      (0 :: (sha256 key).drop 1).length = 32) ∧
    (key.length = 20 →
      getWithdrawalCredentials key = .ok (1 :: (List.replicate 11 0 ++ key)) ∧
      (1 :: (List.replicate 11 0 ++ key)).length = 32) ∧
    (key.length ≠ 48 → key.length ≠ 20 →
      getWithdrawalCredentials key = .error .invalidWithdrawalKey) := by
  rw [getWC_eq_private]
  refine ⟨fun h48 => ⟨creds_bls key h48, ?_⟩, fun h20 => ⟨creds_eth1 key h20, ?_⟩,
          fun h48 h20 => creds_invalid key h48 h20⟩
  · simp [sha256_length key]
  · simp [h20]

/-- C2 witness: the three branches at concrete 48-, 20- and 19-byte inputs. -/
theorem c2_witness :
    ((List.replicate 48 3).length = 48 ∧
      getWithdrawalCredentials (List.replicate 48 3) =
        .ok (0 :: (sha256 (List.replicate 48 3)).drop 1)) ∧
    ((List.replicate 20 7).length = 20 ∧
      getWithdrawalCredentials (List.replicate 20 7) =
        .ok (1 :: (List.replicate 11 0 ++ List.replicate 20 7))) ∧
    ((List.replicate 19 1).length ≠ 48 ∧ (List.replicate 19 1).length ≠ 20 ∧
      getWithdrawalCredentials (List.replicate 19 1) = .error .invalidWithdrawalKey) :=
  ⟨⟨by decide, ((c2_withdrawal_credentials _).1 (by decide)).1⟩,
   ⟨by decide, ((c2_withdrawal_credentials _).2.1 (by decide)).1⟩,
   ⟨by decide, by decide, (c2_withdrawal_credentials _).2.2 (by decide) (by decide)⟩⟩

/-- C9: `ensureHexBuffer` returns a buffer for every string input (invalid or
odd-length hex content is silently truncated by the Node hex decoder, never
raising), returns a Buffer input unchanged, and raises exactly when the input
is neither a string nor a Buffer. -/
theorem c9_ensureHexBuffer_behavior :
    (∀ s : String, ∃ b, ensureHexBuffer (.str s) = .ok b) ∧
    (∀ b : List Nat, ensureHexBuffer (.buf b) = .ok b) ∧
    (∀ i : HexInput, (∃ e, ensureHexBuffer i = .error e) ↔ i = .other) := by
  refine ⟨fun s => ⟨_, rfl⟩, fun b => rfl, fun i => ?_⟩
  cases i <;> simp [ensureHexBuffer]

theorem buildDomain_ok (dt : List Nat) (ni : NetworkInfo)
    (hfv : ni.forkVersion.length = 4) (hvr : ni.validatorsRoot.length = 32) :
    buildDomain dt ni = .ok (mkDomain dt ni) := by
  unfold buildDomain
  rw [if_neg (by omega), if_neg (by omega)]

/-- C3: for a 4-byte domainType and a network info with a 4-byte fork version
and 32-byte validators root, `buildDomain` returns the 32-byte concatenation
of the domainType with the first 28 bytes of the fork-data merkle root;
otherwise it fails with `InvalidNetworkInfo`. -/
theorem c3_buildDomain (dt : List Nat) (ni : NetworkInfo) :
    (dt.length = 4 → ni.forkVersion.length = 4 → ni.validatorsRoot.length = 32 →
      buildDomain dt ni = .ok (dt ++ (forkDataRoot ni).take 28) ∧
      (dt ++ (forkDataRoot ni).take 28).length = 32) ∧
    (ni.forkVersion.length ≠ 4 ∨ ni.validatorsRoot.length ≠ 32 →
      buildDomain dt ni = .error .invalidNetworkInfo) := by
  constructor
  · intro hdt hfv hvr
    constructor
    · rw [buildDomain_ok dt ni hfv hvr, mkDomain_eq dt ni hdt]
    · simp [hdt, forkDataRoot_length ni]
  · intro hbad
    unfold buildDomain
    by_cases hf : ni.forkVersion.length ≠ 4
    · rw [if_pos hf]
    · rcases hbad with h | h
      · exact absurd h hf
      · rw [if_neg hf, if_pos h]

/-- C3 witness: the deposit domain type over mainnet genesis, and the error
branch on an invalid network info. -/
theorem c3_witness :
    (DOMAINS.DEPOSIT.length = 4 ∧
     NETWORKS.MAINNET_GENESIS.forkVersion.length = 4 ∧
     NETWORKS.MAINNET_GENESIS.validatorsRoot.length = 32 ∧
     buildDomain DOMAINS.DEPOSIT NETWORKS.MAINNET_GENESIS =
       .ok (DOMAINS.DEPOSIT ++ (forkDataRoot NETWORKS.MAINNET_GENESIS).take 28)) ∧
    buildDomain DOMAINS.DEPOSIT ⟨"mainnet", [0], List.replicate 32 0⟩ =
      .error .invalidNetworkInfo :=
  ⟨⟨by decide, by decide, by decide,
    ((c3_buildDomain _ _).1 (by decide) (by decide) (by decide)).1⟩,
   (c3_buildDomain DOMAINS.DEPOSIT _).2 (Or.inl (by decide))⟩

/-- C4: for a 32-byte object root and a valid network info,
`buildSigningRoot` returns the merkle root of the `SigningData` container
whose fields are the object root and the domain produced by `buildDomain`;
a non-32-byte object root fails with `InvalidObjectRoot`. -/
theorem c4_buildSigningRoot (objectRoot dt : List Nat) (ni : NetworkInfo) :
    (objectRoot.length = 32 → ni.forkVersion.length = 4 →
     ni.validatorsRoot.length = 32 →
      buildDomain dt ni = .ok (mkDomain dt ni) ∧
      buildSigningRoot objectRoot dt ni =
        .ok (containerRoot [htrByteVector objectRoot, htrByteVector (mkDomain dt ni)]) ∧
      (containerRoot [htrByteVector objectRoot, htrByteVector (mkDomain dt ni)]).length = 32) ∧
    (objectRoot.length ≠ 32 →
      buildSigningRoot objectRoot dt ni = .error .invalidObjectRoot) := by
  constructor
  · intro hor hfv hvr
    refine ⟨buildDomain_ok dt ni hfv hvr, ?_, ?_⟩
    · unfold buildSigningRoot
      rw [if_neg (by omega), buildDomain_ok dt ni hfv hvr, okBind, pureOk]
    · simp [containerRoot, merkleize_two, sha256_length]
  · intro hor
    unfold buildSigningRoot
    rw [if_pos hor]

/-- C4 witness: a concrete 32-byte object root over mainnet genesis, and the
error branch on a short object root. -/
theorem c4_witness :
    ((List.replicate 32 5).length = 32 ∧
     NETWORKS.MAINNET_GENESIS.forkVersion.length = 4 ∧
     NETWORKS.MAINNET_GENESIS.validatorsRoot.length = 32 ∧
     buildSigningRoot (List.replicate 32 5) DOMAINS.DEPOSIT NETWORKS.MAINNET_GENESIS =
       .ok (containerRoot [htrByteVector (List.replicate 32 5),
         htrByteVector (mkDomain DOMAINS.DEPOSIT NETWORKS.MAINNET_GENESIS)])) ∧
    buildSigningRoot [1, 2] DOMAINS.DEPOSIT NETWORKS.MAINNET_GENESIS =
      .error .invalidObjectRoot :=
  ⟨⟨by decide, by decide, by decide,
    ((c4_buildSigningRoot _ _ _).1 (by decide) (by decide) (by decide)).2.1⟩,
   (c4_buildSigningRoot [1, 2] DOMAINS.DEPOSIT _).2 (by decide)⟩

/-- C5: two distinct 4-byte domain types applied to the same valid network
info yield two distinct 32-byte domains, each beginning with its own
domainType in its first 4 bytes. -/
theorem c5_domain_separation (dt1 dt2 : List Nat) (ni : NetworkInfo)
    (h1 : dt1.length = 4) (h2 : dt2.length = 4) (hne : dt1 ≠ dt2)
    (hfv : ni.forkVersion.length = 4) (hvr : ni.validatorsRoot.length = 32) :
    buildDomain dt1 ni = .ok (mkDomain dt1 ni) ∧
    buildDomain dt2 ni = .ok (mkDomain dt2 ni) ∧
    mkDomain dt1 ni ≠ mkDomain dt2 ni ∧
    (mkDomain dt1 ni).take 4 = dt1 ∧ (mkDomain dt2 ni).take 4 = dt2 ∧
    (mkDomain dt1 ni).length = 32 ∧ (mkDomain dt2 ni).length = 32 := by
  have ht1 : (mkDomain dt1 ni).take 4 = dt1 := by
    rw [mkDomain_eq dt1 ni h1, ← h1]
    exact List.take_left dt1 _
  have ht2 : (mkDomain dt2 ni).take 4 = dt2 := by
    rw [mkDomain_eq dt2 ni h2, ← h2]
    exact List.take_left dt2 _
  refine ⟨buildDomain_ok dt1 ni hfv hvr, buildDomain_ok dt2 ni hfv hvr, ?_, ht1, ht2,
          mkDomain_length dt1 ni h1, mkDomain_length dt2 ni h2⟩
  intro heq
  exact hne (ht1 ▸ ht2 ▸ congrArg (List.take 4) heq)

/-- C5 witness: the `DEPOSIT` and `BLS_TO_EXECUTION_CHANGE` domain types over
mainnet genesis give distinct domains. -/
theorem c5_witness :
    DOMAINS.DEPOSIT ≠ DOMAINS.BLS_TO_EXECUTION_CHANGE ∧
    mkDomain DOMAINS.DEPOSIT NETWORKS.MAINNET_GENESIS ≠
      mkDomain DOMAINS.BLS_TO_EXECUTION_CHANGE NETWORKS.MAINNET_GENESIS ∧
    (mkDomain DOMAINS.DEPOSIT NETWORKS.MAINNET_GENESIS).take 4 = DOMAINS.DEPOSIT :=
  ⟨by decide,
   (c5_domain_separation _ _ _ (by decide) (by decide) (by decide) (by decide)
     (by decide)).2.2.1,
   (c5_domain_separation DOMAINS.DEPOSIT DOMAINS.BLS_TO_EXECUTION_CHANGE
     NETWORKS.MAINNET_GENESIS (by decide) (by decide) (by decide) (by decide)
     (by decide)).2.2.2.1⟩

theorem errBind {α β : Type} (e : EthErr) (f : α → Except EthErr β) :
    (Except.error e : Except EthErr α) >>= f = Except.error e := rfl

theorem buildSigningRoot_cases (r dt : List Nat) (ni : NetworkInfo) :
    (∃ d, buildSigningRoot r dt ni = .ok d) ∨
    buildSigningRoot r dt ni = .error .invalidObjectRoot ∨
    buildSigningRoot r dt ni = .error .invalidNetworkInfo := by
  unfold buildSigningRoot
  by_cases h1 : r.length ≠ 32
  · rw [if_pos h1]
    right; left; rfl
  · rw [if_neg h1]
    unfold buildDomain
    by_cases h2 : ni.forkVersion.length ≠ 4
    · rw [if_pos h2]
      right; right; rfl
    · rw [if_neg h2]
      by_cases h3 : ni.validatorsRoot.length ≠ 32
      · rw [if_pos h3]
        right; right; rfl
      · rw [if_neg h3]
        left; exact ⟨_, rfl⟩

theorem jsTruthyStr_false_iff (o : Option String) :
    jsTruthyStr o = false ↔ (o = none ∨ o = some "") := by
  cases o <;> simp [jsTruthyStr]

theorem buildSigningRoot_ne_missing (r dt : List Nat) (ni : NetworkInfo) :
    buildSigningRoot r dt ni ≠ .error .missingParameter := by
  rcases buildSigningRoot_cases r dt ni with ⟨d, hd⟩ | h | h
  · rw [hd]
    intro hc
    exact Except.noConfusion hc
  · rw [h]
    intro hc
    injection hc with hce
    exact EthErr.noConfusion hce
  · rw [h]
    intro hc
    injection hc with hce
    exact EthErr.noConfusion hce

theorem okTail_ne_missing {β : Type} (x : Except EthErr (List Nat))
    (g : List Nat → β) (hx : x ≠ Except.error EthErr.missingParameter) :
    (x >>= fun p => Except.ok (g p)) ≠
      (Except.error EthErr.missingParameter : Except EthErr β) := by
  cases x with
  | ok a =>
    rw [okBind]
    intro hc
    exact Except.noConfusion hc
  | error e =>
    rw [errBind]
    intro hc
    injection hc with hce
    exact hx (by rw [hce])

/-- C8 (counterexample): with the execution address present but equal to the
empty string (a falsy JS value) and validator index 0, the assembler still
fails with `MissingParameter`, so "fails iff the address is absent or the
index is undefined/null" is false as stated. -/
theorem c8_counterexample :
    ¬ ((BLSToExecution.generate constSigner [0] ⟨some "", some 0, none⟩ =
          .error .missingParameter) ↔
       ((⟨some "", some 0, none⟩ : BlsToExecutionOpts).eth1Addr = none ∨
        (⟨some "", some 0, none⟩ : BlsToExecutionOpts).validatorIdx = none)) := by
  decide

/-- C8 (amended): the BLS-to-execution-change assembler fails with
`MissingParameter` iff the execution address is absent or the empty string
(JS-falsy), or the validator index is undefined/null; in particular
`validatorIdx = 0` with a non-empty address is accepted and proceeds past the
parameter check. -/
theorem c8_missing_parameter (client : Signer) (path : List Nat)
    (opts : BlsToExecutionOpts) :
    (BLSToExecution.generate client path opts = .error .missingParameter ↔
      (opts.eth1Addr = none ∨ opts.eth1Addr = some "" ∨ opts.validatorIdx = none)) ∧
    (∀ a : String, a ≠ "" → opts.eth1Addr = some a → opts.validatorIdx = some 0 →
      BLSToExecution.generate client path opts ≠ .error .missingParameter) := by
  have hiff : BLSToExecution.generate client path opts = .error .missingParameter ↔
      (opts.eth1Addr = none ∨ opts.eth1Addr = some "" ∨ opts.validatorIdx = none) := by
    constructor
    · intro hEq
      by_cases htr : jsTruthyStr opts.eth1Addr = true
      · by_cases hidx : opts.validatorIdx = none
        · exact Or.inr (Or.inr hidx)
        · exfalso
          unfold BLSToExecution.generate at hEq
          rw [if_neg (by simp [htr]), if_neg hidx, ensureHexBuffer_str, okBind,
              ensureHexBuffer_buf, okBind] at hEq
          exact okTail_ne_missing _ _ (buildSigningRoot_ne_missing _ _ _) hEq
      · have := (jsTruthyStr_false_iff opts.eth1Addr).mp (by simpa using htr)
        rcases this with h | h
        · exact Or.inl h
        · exact Or.inr (Or.inl h)
    · intro hcase
      unfold BLSToExecution.generate
      rcases hcase with h | h | h
      · rw [if_pos (by simp [jsTruthyStr, h])]
      · rw [if_pos (by simp [jsTruthyStr, h])]
      · by_cases htr : jsTruthyStr opts.eth1Addr = true
        · rw [if_neg (by simp [htr]), if_pos h]
        · rw [if_pos (by simp [htr])]
  refine ⟨hiff, fun a ha hsome hidx hEq => ?_⟩
  rcases hiff.mp hEq with h | h | h
  · rw [hsome] at h
    exact Option.noConfusion h
  · rw [hsome] at h
    injection h with hstr
    exact ha hstr
  · rw [hidx] at h
    exact Option.noConfusion h

/-- C8 witness: a non-empty address with validator index 0 does not raise
`MissingParameter`. -/
theorem c8_witness :
    BLSToExecution.generate constSigner [0] ⟨some "0x1122", some 0, none⟩ ≠
      .error .missingParameter :=
  (c8_missing_parameter constSigner [0] _).2 "0x1122" (by decide) rfl rfl

theorem containerRoot_three_length (r1 r2 r3 : List Nat) :
    (containerRoot [r1, r2, r3]).length = 32 := by
  simp [containerRoot, merkleize_three, sha256_length]

theorem buildSigningRoot_ok (r dt : List Nat) (ni : NetworkInfo)
    (hor : r.length = 32) (hfv : ni.forkVersion.length = 4)
    (hvr : ni.validatorsRoot.length = 32) :
    buildSigningRoot r dt ni = .ok (signingRootOf r dt ni) := by
  unfold buildSigningRoot signingRootOf
  rw [if_neg (by omega), buildDomain_ok dt ni hfv hvr, okBind, pureOk]

/-- Full reduction of `buildDepositData` on a run with no explicit withdrawal
key, a valid amount and network info, and a parent-path withdrawal key whose
credentials resolve to `c`: everything up to the signer-identity check is
deterministic. -/
theorem buildDepositData_run (client : Signer) (path : List Nat) (a : Int)
    (ni : NetworkInfo) (cli : String) (c : List Nat)
    (hapos : 0 < a) (hamax : a < (2 : Int) ^ 64) (hcli : cli ≠ "")
    (hname : ni.networkName ≠ "") (hfv : ni.forkVersion.length = 4)
    (hvr : ni.validatorsRoot.length = 32)
    (hc : DepositData.getEthDepositWithdrawalCredentials
            (client.getAddress (path.take (path.length - 1))) = .ok c) :
    DepositData.buildDepositData client path ⟨none, some a, some ni, some cli⟩ =
      if bytesToHex (client.sign (signingRootOf
            (containerRoot [htrByteVector (client.getAddress path),
              htrByteVector c, htrUint64 a]) DOMAINS.DEPOSIT ni)).pubkey ≠
          bytesToHex (client.getAddress path)
      then .error .signerMismatch
      else .ok {
        pubkey := bytesToHex (client.getAddress path),
        withdrawal_credentials := bytesToHex c,
        amount := a,
        signature := bytesToHex (client.sign (signingRootOf
            (containerRoot [htrByteVector (client.getAddress path),
              htrByteVector c, htrUint64 a]) DOMAINS.DEPOSIT ni)).sig,
        deposit_message_root := bytesToHex
          (containerRoot [htrByteVector (client.getAddress path),
            htrByteVector c, htrUint64 a]),
        deposit_data_root := bytesToHex
          (containerRoot [htrByteVector (client.getAddress path),
            htrByteVector c, htrUint64 a,
            htrByteVector (client.sign (signingRootOf
              (containerRoot [htrByteVector (client.getAddress path),
                htrByteVector c, htrUint64 a]) DOMAINS.DEPOSIT ni)).sig]),
        fork_version := bytesToHex ni.forkVersion,
        network_name := ni.networkName,
        deposit_cli_version := cli } := by
  have h1 : ¬ (a = 0 ∨ cli = "") := by
    rintro (h | h)
    · omega
    · exact hcli h
  have h2 : ¬ (a < 0 ∨ (2 : Int) ^ 64 ≤ a) := by
    rintro (h | h)
    · omega
    · exact absurd hamax (not_lt.mpr h)
  have hbsr := buildSigningRoot_ok
    (containerRoot [htrByteVector (client.getAddress path), htrByteVector c, htrUint64 a])
    DOMAINS.DEPOSIT ni (containerRoot_three_length _ _ _) hfv hvr
  unfold DepositData.buildDepositData
  simp only [Option.getD_some]
  rw [if_neg h1, if_neg h2, if_neg hname, if_neg (by omega), if_neg (by omega)]
  rw [ensureHexBuffer_buf, okBind]
  rw [if_neg (by simp [jsTruthyStr])]
  rw [ensureHexBuffer_buf, okBind, hc, okBind]
  simp only [hbsr, okBind]

/-- C6: with all other inputs valid, the deposit assembler fails for
`amountGwei = 0` (caught by the falsy-parameter check) and for every
`amountGwei ≥ 2^64` (caught by the range check), and succeeds for
`amountGwei = 1` and `amountGwei = 2^64 - 1`. -/
theorem c6_amount_validation (client : Signer) (path : List Nat)
    (ni : NetworkInfo) (cli : String) (c : List Nat)
    (hcli : cli ≠ "") (hname : ni.networkName ≠ "")
    (hfv : ni.forkVersion.length = 4) (hvr : ni.validatorsRoot.length = 32)
    (hc : DepositData.getEthDepositWithdrawalCredentials
            (client.getAddress (path.take (path.length - 1))) = .ok c)
    (hmatch : ∀ pl, bytesToHex (client.sign pl).pubkey =
        bytesToHex (client.getAddress path)) :
    (∀ a : Int, a = 0 ∨ (2 : Int) ^ 64 ≤ a →
      ∃ e, DepositData.buildDepositData client path ⟨none, some a, some ni, some cli⟩ =
        .error e) ∧
    (∃ d, DepositData.buildDepositData client path ⟨none, some 1, some ni, some cli⟩ =
      .ok d) ∧
    (∃ d, DepositData.buildDepositData client path
      ⟨none, some ((2 : Int) ^ 64 - 1), some ni, some cli⟩ = .ok d) := by
  refine ⟨fun a ha => ?_, ?_, ?_⟩
  · unfold DepositData.buildDepositData
    simp only [Option.getD_some]
    rcases ha with h0 | hge
    · rw [if_pos (Or.inl h0)]
      exact ⟨_, rfl⟩
    · have h64 : ¬ ((2 : Int) ^ 64 ≤ 0) := by norm_num
      have ha0 : ¬ (a = 0 ∨ cli = "") := by
        rintro (h | h)
        · exact h64 (h ▸ hge)
        · exact hcli h
      rw [if_neg ha0, if_pos (Or.inr hge)]
      exact ⟨_, rfl⟩
  · rw [buildDepositData_run client path 1 ni cli c (by norm_num) (by norm_num)
      hcli hname hfv hvr hc]
    rw [if_neg (by simp [hmatch])]
    exact ⟨_, rfl⟩
  · rw [buildDepositData_run client path ((2 : Int) ^ 64 - 1) ni cli c
      (by norm_num) (by norm_num) hcli hname hfv hvr hc]
    rw [if_neg (by simp [hmatch])]
    exact ⟨_, rfl⟩

/-- C6 witness: a concrete signer and mainnet-genesis options at amounts 0,
2^64, 1 and 2^64 - 1. -/
theorem c6_witness :
    (∃ e, DepositData.buildDepositData pathSigner [12381, 3600, 0, 0, 0]
        ⟨none, some 0, some NETWORKS.MAINNET_GENESIS, some "2.3.0"⟩ = .error e) ∧
    (∃ e, DepositData.buildDepositData pathSigner [12381, 3600, 0, 0, 0]
        ⟨none, some ((2 : Int) ^ 64), some NETWORKS.MAINNET_GENESIS, some "2.3.0"⟩ =
        .error e) ∧
    (∃ d, DepositData.buildDepositData pathSigner [12381, 3600, 0, 0, 0]
        ⟨none, some 1, some NETWORKS.MAINNET_GENESIS, some "2.3.0"⟩ = .ok d) ∧
    (∃ d, DepositData.buildDepositData pathSigner [12381, 3600, 0, 0, 0]
        ⟨none, some ((2 : Int) ^ 64 - 1), some NETWORKS.MAINNET_GENESIS,
         some "2.3.0"⟩ = .ok d) :=
  have hb := c6_amount_validation pathSigner [12381, 3600, 0, 0, 0]
    NETWORKS.MAINNET_GENESIS "2.3.0" _
    (by decide) (by decide) (by decide) (by decide)
    (creds_bls _ (by decide)) (fun _ => rfl)
  ⟨hb.1 0 (Or.inl rfl), hb.1 ((2 : Int) ^ 64) (Or.inr (by norm_num)),
   hb.2.1, hb.2.2⟩

/-- C7: in a completing run of the deposit assembler, if the external
signer's sign call reports a public key whose hex differs from the resolved
deposit key the assembler fails with `SignerMismatch` and produces no deposit
record; if the reported key matches, no `SignerMismatch` is raised. -/
theorem c7_signer_mismatch (client : Signer) (path : List Nat) (a : Int)
    (ni : NetworkInfo) (cli : String) (c : List Nat)
    (hapos : 0 < a) (hamax : a < (2 : Int) ^ 64) (hcli : cli ≠ "")
    (hname : ni.networkName ≠ "") (hfv : ni.forkVersion.length = 4)
    (hvr : ni.validatorsRoot.length = 32)
    (hc : DepositData.getEthDepositWithdrawalCredentials
            (client.getAddress (path.take (path.length - 1))) = .ok c) :
    ((∀ pl, bytesToHex (client.sign pl).pubkey ≠ bytesToHex (client.getAddress path)) →
      DepositData.buildDepositData client path ⟨none, some a, some ni, some cli⟩ =
        .error .signerMismatch) ∧
    ((∀ pl, bytesToHex (client.sign pl).pubkey = bytesToHex (client.getAddress path)) →
      DepositData.buildDepositData client path ⟨none, some a, some ni, some cli⟩ ≠
        .error .signerMismatch) := by
  constructor
  · intro hmis
    rw [buildDepositData_run client path a ni cli c hapos hamax hcli hname hfv hvr hc]
    rw [if_pos (hmis _)]
  · intro hmatch
    rw [buildDepositData_run client path a ni cli c hapos hamax hcli hname hfv hvr hc]
    rw [if_neg (by simp [hmatch])]
    intro hcon
    exact Except.noConfusion hcon

/-- C7 witness: a signer reporting the wrong key yields `SignerMismatch`; a
signer reporting the resolved deposit key does not. -/
theorem c7_witness :
    DepositData.buildDepositData badSigner [12381, 3600, 0, 0, 0]
      ⟨none, some 1, some NETWORKS.MAINNET_GENESIS, some "2.3.0"⟩ =
      .error .signerMismatch ∧
    DepositData.buildDepositData pathSigner [12381, 3600, 0, 0, 0]
      ⟨none, some 1, some NETWORKS.MAINNET_GENESIS, some "2.3.0"⟩ ≠
      .error .signerMismatch :=
  ⟨(c7_signer_mismatch badSigner [12381, 3600, 0, 0, 0] 1 NETWORKS.MAINNET_GENESIS
      "2.3.0" _ (by norm_num) (by norm_num) (by decide) (by decide) (by decide)
      (by decide) (creds_bls _ (by decide))).1
      (fun _ => (by decide :
        bytesToHex (List.replicate 48 3) ≠ bytesToHex (List.replicate 48 1))),
   (c7_signer_mismatch pathSigner [12381, 3600, 0, 0, 0] 1 NETWORKS.MAINNET_GENESIS
      "2.3.0" _ (by norm_num) (by norm_num) (by decide) (by decide) (by decide)
      (by decide) (creds_bls _ (by decide))).2 (fun _ => rfl)⟩

/-- C10: when `opts.withdrawTo` is absent and the run completes, the
withdrawal credentials in the output are exactly the encoder's output on the
key the signer returns for the parent derivation path
`path.slice(0, path.length - 1)`. -/
theorem c10_parent_path_withdrawal_key (client : Signer) (path : List Nat)
    (a : Int) (ni : NetworkInfo) (cli : String) (c : List Nat)
    (hapos : 0 < a) (hamax : a < (2 : Int) ^ 64) (hcli : cli ≠ "")
    (hname : ni.networkName ≠ "") (hfv : ni.forkVersion.length = 4)
    (hvr : ni.validatorsRoot.length = 32)
    (hc : DepositData.getEthDepositWithdrawalCredentials
            (client.getAddress (path.take (path.length - 1))) = .ok c)
    (hmatch : ∀ pl, bytesToHex (client.sign pl).pubkey =
        bytesToHex (client.getAddress path)) :
    ∃ dd, DepositData.buildDepositData client path ⟨none, some a, some ni, some cli⟩ =
        .ok dd ∧ dd.withdrawal_credentials = bytesToHex c := by
  rw [buildDepositData_run client path a ni cli c hapos hamax hcli hname hfv hvr hc]
  rw [if_neg (by simp [hmatch])]
  exact ⟨_, rfl, rfl⟩

/-- C10 witness: a signer whose parent-path key (48 bytes of `2`) differs
from its deposit key (48 bytes of `1`): the output credentials are the
BLS encoding of the parent-path key. -/
theorem c10_witness :
    ∃ dd, DepositData.buildDepositData pathSigner [12381, 3600, 0, 0, 0]
        ⟨none, some 1, some NETWORKS.MAINNET_GENESIS, some "2.3.0"⟩ = .ok dd ∧
      dd.withdrawal_credentials =
        bytesToHex (0 :: (sha256 (List.replicate 48 2)).drop 1) :=
  c10_parent_path_withdrawal_key pathSigner [12381, 3600, 0, 0, 0] 1
    NETWORKS.MAINNET_GENESIS "2.3.0" (0 :: (sha256 (List.replicate 48 2)).drop 1)
    (by norm_num) (by norm_num) (by decide) (by decide) (by decide) (by decide)
    (by rw [show pathSigner.getAddress ([12381, 3600, 0, 0, 0].take
          ([12381, 3600, 0, 0, 0].length - 1)) = List.replicate 48 2 from rfl]
        exact creds_bls _ (by decide))
    (fun _ => rfl)

/-- C9 witness: a Buffer input passes through unchanged. -/
theorem c9_witness : ensureHexBuffer (.buf [171]) = .ok [171] :=
  c9_ensureHexBuffer_behavior.2.1 [171]
